import Mathlib

/-!
Verification of the asynchronous task-and-state orchestration layer of
`raspap_touch_kivy.py` (a touch-display supervisor for a RaspAP Wi-Fi
appliance).

Each definition below is a shallow embedding of one Python function of the
source, keeping the source's name (Lean-ified where needed).  Python `dict`s
are embedded as association lists with insertion-order semantics, `set`s as
`Finset String`, machine integers as `Int`/`Nat`, command outputs as plain
`String`s (the helper `run_cmd` of the source returns `""` on any failure),
and fallible computations as `Except`.
-/

set_option linter.unusedVariables false

/-! Section: Scan results (`scan_nmcli` / `scan_wpa_cli` value type)

Both scan backends produce a Python dict mapping SSID to
`{"signal": int, "security": str}`. -/

structure ScanInfo where
  signal : Int
  security : String
deriving DecidableEq, Repr

/-- Python dict lookup on an association list (first binding wins; in a
well-formed dict keys are unique so there is at most one). -/
def mapGet : List (String × ScanInfo) → String → Option ScanInfo
  | [], _ => none
  | p :: t, k => if p.1 = k then some p.2 else mapGet t k

/-- Python dict assignment `m[k] = v`: replace the binding in place if the key
is present, otherwise append it (insertion order). -/
def mapSet : List (String × ScanInfo) → String → ScanInfo → List (String × ScanInfo)
  | [], k, v => [(k, v)]
  | p :: t, k, v => if p.1 = k then (k, v) :: t else p :: mapSet t k v

/-- Keys of a dict, in insertion order. -/
def dictKeys (m : List (String × ScanInfo)) : List String := m.map Prod.fst

/-- A well-formed Python dict has pairwise-distinct keys. -/
def DictKeysNodup (m : List (String × ScanInfo)) : Prop := (dictKeys m).Nodup

instance instDecDictKeysNodup (m : List (String × ScanInfo)) : Decidable (DictKeysNodup m) :=
  inferInstanceAs (Decidable (dictKeys m).Nodup)

/-- One iteration of the merge loop in `WifiScreen.refresh_networks`:
`if ssid not in merged or info["signal"] > merged[ssid]["signal"]:
merged[ssid] = info`. -/
def scanStep (m : List (String × ScanInfo)) (e : String × ScanInfo) :
    List (String × ScanInfo) :=
  match mapGet m e.1 with
  | none => mapSet m e.1 e.2
  | some old => if e.2.signal > old.signal then mapSet m e.1 e.2 else m

/-- The merge of the two scan backends in `WifiScreen.refresh_networks`
(lines 1181-1185): `merged = {}` then `for src in (nm, wp): for ssid, info in
src.items(): ...` — a left fold of `scanStep` over the entries of `nm`
followed by those of `wp`. -/
def mergeScans (nm wp : List (String × ScanInfo)) : List (String × ScanInfo) :=
  (nm ++ wp).foldl scanStep []

/-- Combination of two optional per-backend entries for one SSID, as computed
by the merge loop: the second replaces the first only on strictly greater
signal. -/
def mergeOpt (x y : Option ScanInfo) : Option ScanInfo :=
  match x, y with
  | none, y => y
  | some a, none => some a
  | some a, some b => some (if b.signal > a.signal then b else a)

theorem mapGet_mapSet_self (m : List (String × ScanInfo)) (k : String) (v : ScanInfo) :
    mapGet (mapSet m k v) k = some v := by
  induction m with
  | nil => simp [mapSet, mapGet]
  | cons p t ih =>
    by_cases h : p.1 = k <;> simp [mapSet, h, mapGet, ih]

theorem mapGet_mapSet_ne (m : List (String × ScanInfo)) (k k' : String) (v : ScanInfo)
    (h : k' ≠ k) : mapGet (mapSet m k v) k' = mapGet m k' := by
  induction m with
  | nil =>
    simp only [mapSet, mapGet]
    rw [if_neg (Ne.symm h)]
  | cons p t ih =>
    simp only [mapSet]
    by_cases hp : p.1 = k
    · rw [if_pos hp]
      show (if k = k' then some v else mapGet t k') = (if p.1 = k' then some p.2 else mapGet t k')
      rw [if_neg (Ne.symm h), if_neg (fun h'' => h (hp.symm.trans h'').symm)]
    · rw [if_neg hp]
      show (if p.1 = k' then some p.2 else mapGet (mapSet t k v) k')
          = (if p.1 = k' then some p.2 else mapGet t k')
      by_cases hk' : p.1 = k' <;> simp [hk', ih]

theorem scanStep_get_self (m : List (String × ScanInfo)) (e : String × ScanInfo) :
    mapGet (scanStep m e) e.1 = mergeOpt (mapGet m e.1) (some e.2) := by
  unfold scanStep mergeOpt
  cases h : mapGet m e.1 with
  | none => simp [mapGet_mapSet_self]
  | some old =>
    by_cases hs : e.2.signal > old.signal
    · simp [hs, mapGet_mapSet_self]
    · simp [hs, h]

theorem scanStep_get_ne (m : List (String × ScanInfo)) (e : String × ScanInfo)
    (k : String) (h : k ≠ e.1) : mapGet (scanStep m e) k = mapGet m k := by
  unfold scanStep
  cases hg : mapGet m e.1 with
  | none => simp [mapGet_mapSet_ne _ _ _ _ h]
  | some old =>
    by_cases hs : e.2.signal > old.signal
    · simp [hs, mapGet_mapSet_ne _ _ _ _ h]
    · simp [hs]

theorem mapGet_eq_none_of_not_mem (m : List (String × ScanInfo)) (k : String)
    (h : k ∉ dictKeys m) : mapGet m k = none := by
  induction m with
  | nil => rfl
  | cons p t ih =>
    simp only [dictKeys, List.map_cons, List.mem_cons, not_or] at h
    simp only [mapGet]
    rw [if_neg (fun h' => h.1 h'.symm), ih (by simpa [dictKeys] using h.2)]

theorem mergeOpt_none_right (x : Option ScanInfo) : mergeOpt x none = x := by
  cases x <;> rfl

/-- Value of one key after folding the entries of a well-formed dict `l` into
an accumulator dict `m`. -/
theorem foldl_scanStep_get (l : List (String × ScanInfo)) (m : List (String × ScanInfo))
    (k : String) (hl : DictKeysNodup l) :
    mapGet (l.foldl scanStep m) k = mergeOpt (mapGet m k) (mapGet l k) := by
  induction l generalizing m with
  | nil => simp [mapGet, mergeOpt_none_right]
  | cons e t ih =>
    have hnd : DictKeysNodup t := by
      simpa [DictKeysNodup, dictKeys] using (List.nodup_cons.mp hl).2
    have hk : e.1 ∉ dictKeys t := by
      simpa [DictKeysNodup, dictKeys] using (List.nodup_cons.mp hl).1
    by_cases h : k = e.1
    · subst h
      rw [List.foldl_cons, ih _ hnd, mapGet_eq_none_of_not_mem _ _ hk,
        mergeOpt_none_right, scanStep_get_self]
      simp [mapGet]
    · rw [List.foldl_cons, ih _ hnd, scanStep_get_ne _ _ _ h]
      show mergeOpt (mapGet m k) (mapGet t k) = mergeOpt (mapGet m k) (mapGet (e :: t) k)
      simp only [mapGet]
      rw [if_neg (Ne.symm h)]

/-- Lookup in the merged scan dict is the `mergeOpt` of the two backend
lookups. -/
theorem mergeScans_get (nm wp : List (String × ScanInfo)) (k : String)
    (hnm : DictKeysNodup nm) (hwp : DictKeysNodup wp) :
    mapGet (mergeScans nm wp) k = mergeOpt (mapGet nm k) (mapGet wp k) := by
  unfold mergeScans
  rw [List.foldl_append, foldl_scanStep_get _ _ _ hwp, foldl_scanStep_get _ _ _ hnm]
  rfl

/-- Claim C1: For every pair of scan-backend results (the nmcli and wpa_cli
dicts mapping SSID to `{signal, security}`) and every SSID present in at
least one of them, the merged dict built by `WifiScreen.refresh_networks`
contains that SSID with signal equal to the maximum of its per-backend
signals; on a tie the first-seen (nmcli) entry is kept. -/
theorem C1_merged_signal_is_max (nm wp : List (String × ScanInfo)) (ssid : String)
    (hnm : DictKeysNodup nm) (hwp : DictKeysNodup wp) :
    (∀ a b, mapGet nm ssid = some a → mapGet wp ssid = some b →
      mapGet (mergeScans nm wp) ssid = some (if b.signal > a.signal then b else a) ∧
      (if b.signal > a.signal then b else a).signal = max a.signal b.signal ∧
      (a.signal = b.signal → (if b.signal > a.signal then b else a) = a)) ∧
    (∀ a, mapGet nm ssid = some a → mapGet wp ssid = none →
      mapGet (mergeScans nm wp) ssid = some a) ∧
    (∀ b, mapGet nm ssid = none → mapGet wp ssid = some b →
      mapGet (mergeScans nm wp) ssid = some b) := by
  refine ⟨?_, ?_, ?_⟩
  · intro a b ha hb
    rw [mergeScans_get _ _ _ hnm hwp, ha, hb]
    refine ⟨rfl, ?_, ?_⟩
    · by_cases hs : b.signal > a.signal
      · rw [if_pos hs]; omega
      · rw [if_neg hs]; omega
    · intro he
      rw [if_neg (by omega)]
  · intro a ha hb
    rw [mergeScans_get _ _ _ hnm hwp, ha, hb]
    rfl
  · intro b ha hb
    rw [mergeScans_get _ _ _ hnm hwp, ha, hb]
    rfl

/-- Witness for C1: concrete two-backend scans sharing SSID `"Home"`
(nmcli signal 50, wpa_cli signal 70) and an SSID `"Cafe"` seen only by
wpa_cli. -/
theorem C1_merged_signal_is_max_witness :
    DictKeysNodup [("Home", ScanInfo.mk 50 "WPA2")] ∧
    DictKeysNodup [("Home", ScanInfo.mk 70 "WPA"), ("Cafe", ScanInfo.mk 30 "")] ∧
    mapGet (mergeScans [("Home", ScanInfo.mk 50 "WPA2")]
        [("Home", ScanInfo.mk 70 "WPA"), ("Cafe", ScanInfo.mk 30 "")]) "Home"
      = some (ScanInfo.mk 70 "WPA") ∧
    mapGet (mergeScans [("Home", ScanInfo.mk 50 "WPA2")]
        [("Home", ScanInfo.mk 70 "WPA"), ("Cafe", ScanInfo.mk 30 "")]) "Cafe"
      = some (ScanInfo.mk 30 "") := by
  refine ⟨by decide, by decide, ?_, ?_⟩
  · have h := (C1_merged_signal_is_max [("Home", ScanInfo.mk 50 "WPA2")]
      [("Home", ScanInfo.mk 70 "WPA"), ("Cafe", ScanInfo.mk 30 "")] "Home"
      (by decide) (by decide)).1 (ScanInfo.mk 50 "WPA2") (ScanInfo.mk 70 "WPA")
      (by decide) (by decide)
    simpa using h.1
  · exact (C1_merged_signal_is_max [("Home", ScanInfo.mk 50 "WPA2")]
      [("Home", ScanInfo.mk 70 "WPA"), ("Cafe", ScanInfo.mk 30 "")] "Cafe"
      (by decide) (by decide)).2.2 (ScanInfo.mk 30 "") (by decide) (by decide)

/-! Section: Python string primitives

`str.strip()` and the code-point lexicographic order used by `sorted()`,
embedded over `List Char` so they compute. -/

/-- Python `str.strip()`: remove whitespace from both ends. -/
def pyStrip (s : String) : String :=
  ⟨((s.data.dropWhile Char.isWhitespace).reverse.dropWhile Char.isWhitespace).reverse⟩

/-- Python string `<=`: code-point lexicographic order on the characters. -/
def strLeb : List Char → List Char → Bool
  | [], _ => true
  | _ :: _, [] => false
  | a :: as, b :: bs => if a < b then true else if a = b then strLeb as bs else false

/-- Python string `<=` lifted to `String`. -/
def pyStrLe (a b : String) : Prop := strLeb a.data b.data = true

instance instDecPyStrLe : DecidableRel pyStrLe :=
  fun _ _ => inferInstanceAs (Decidable (_ = true))

theorem strLeb_total (as bs : List Char) : strLeb as bs = true ∨ strLeb bs as = true := by
  induction as generalizing bs with
  | nil => left; rfl
  | cons a as ih =>
    cases bs with
    | nil => right; rfl
    | cons b bs =>
      rcases lt_trichotomy a b with h | h | h
      · left; simp [strLeb, h]
      · subst h
        rcases ih bs with h' | h' <;> [left; right] <;> simp [strLeb, h']
      · right; simp [strLeb, h]

theorem strLeb_trans (as bs cs : List Char) (h₁ : strLeb as bs = true)
    (h₂ : strLeb bs cs = true) : strLeb as cs = true := by
  induction as generalizing bs cs with
  | nil => rfl
  | cons a as ih =>
    cases bs with
    | nil => simp [strLeb] at h₁
    | cons b bs =>
      cases cs with
      | nil => simp [strLeb] at h₂
      | cons c cs =>
        simp only [strLeb] at h₁ h₂ ⊢
        rcases lt_trichotomy a b with hab | hab | hab
        · rcases lt_trichotomy b c with hbc | hbc | hbc
          · rw [if_pos (lt_trans hab hbc)]
          · subst hbc; rw [if_pos hab]
          · rw [if_neg (asymm hbc), if_neg (ne_of_gt hbc)] at h₂
            simp at h₂
        · subst hab
          rw [if_neg (lt_irrefl a), if_pos rfl] at h₁
          rcases lt_trichotomy a c with hac | hac | hac
          · rw [if_pos hac]
          · subst hac
            rw [if_neg (lt_irrefl a), if_pos rfl] at h₂ ⊢
            exact ih _ _ h₁ h₂
          · rw [if_neg (asymm hac), if_neg (ne_of_gt hac)] at h₂
            simp at h₂
        · rw [if_neg (asymm hab), if_neg (ne_of_gt hab)] at h₁
          simp at h₁

theorem strLeb_antisymm (as bs : List Char) (h₁ : strLeb as bs = true)
    (h₂ : strLeb bs as = true) : as = bs := by
  induction as generalizing bs with
  | nil =>
    cases bs with
    | nil => rfl
    | cons b bs => simp [strLeb] at h₂
  | cons a as ih =>
    cases bs with
    | nil => simp [strLeb] at h₁
    | cons b bs =>
      simp only [strLeb] at h₁ h₂
      rcases lt_trichotomy a b with hab | hab | hab
      · rw [if_neg (asymm hab), if_neg (ne_of_gt hab)] at h₂
        simp at h₂
      · subst hab
        rw [if_neg (lt_irrefl a), if_pos rfl] at h₁ h₂
        rw [ih bs h₁ h₂]
      · rw [if_neg (asymm hab), if_neg (ne_of_gt hab)] at h₁
        simp at h₁

instance instPyStrLeTotal : IsTotal String pyStrLe :=
  ⟨fun a b => strLeb_total a.data b.data⟩

instance instPyStrLeTrans : IsTrans String pyStrLe :=
  ⟨fun a b c => strLeb_trans a.data b.data c.data⟩

instance instPyStrLeAntisymm : IsAntisymm String pyStrLe :=
  ⟨fun a b h₁ h₂ => String.ext (strLeb_antisymm a.data b.data h₁ h₂)⟩

instance instPyStrLeRefl : IsRefl String pyStrLe :=
  ⟨fun a => by
    rcases strLeb_total a.data a.data with h | h <;> exact h⟩

/-- Python `str.split(sep)` for a single-character separator (the source only
splits on `"\t"`, `"\n"` and `":"`), over the character list. -/
def pySplitChar (sep : Char) : List Char → List (List Char)
  | [] => [[]]
  | c :: rest =>
    if c = sep then [] :: pySplitChar sep rest
    else
      match pySplitChar sep rest with
      | [] => [[c]]
      | h :: t => (c :: h) :: t

/-- Python `s.split(sep)` lifted to `String`. -/
def pySplit (s : String) (sep : Char) : List String :=
  (pySplitChar sep s.data).map String.mk

/-! Section: Saved networks (`get_saved_networks_wpa_cli`, `get_saved_networks_nmcli`)
and the saved-union of `WifiScreen.refresh_networks` -/

/-- One iteration of the line loop of `get_saved_networks_wpa_cli`:
`parts = line.split("\t"); if len(parts) >= 2: nid, ssid = parts[0], parts[1];
if ssid: s = ssid.strip(); ssids.add(s); ssid_to_id.setdefault(s, nid)`. -/
def wpaSavedStep (acc : Finset String × List (String × String)) (line : String) :
    Finset String × List (String × String) :=
  match pySplit line '\t' with
  | nid :: ssid :: _ =>
    if ssid ≠ "" then
      let s := pyStrip ssid
      (insert s acc.1,
       if (acc.2.find? (fun p => p.1 == s)).isSome then acc.2 else acc.2 ++ [(s, nid)])
    else acc
  | _ => acc

/-- `get_saved_networks_wpa_cli` (lines 350-364), as a function of the
`wpa_cli list_networks` output (`run_cmd` returns `""` on failure or
timeout).  Returns the set of saved SSIDs and the SSID→network-id dict; the
first output line is a header and is skipped. -/
def get_saved_networks_wpa_cli (out : String) :
    Finset String × List (String × String) :=
  if out = "" then (∅, [])
  else ((pySplit out '\n').drop 1).foldl wpaSavedStep (∅, [])

/-- Python `":".join l`, used to rebuild the remainder in `partition`. -/
def joinColon : List String → String
  | [] => ""
  | [x] => x
  | x :: rest => x ++ ":" ++ joinColon rest

/-- Python `line.partition(":")`, keeping the pieces before and after the
first colon. -/
def pyPartitionColon (line : String) : String × String :=
  match pySplit line ':' with
  | [] => (line, "")
  | [x] => (x, "")
  | x :: rest => (x, joinColon rest)

/-- `get_saved_networks_nmcli` (lines 389-413), as a function of: whether the
`nmcli` binary exists, the return code and stdout of
`nmcli -t -f NAME,TYPE connection show`, and the per-connection
`802-11-wireless.ssid` lookup (`run_cmd`, `""` on failure).  Any failure
degrades to an empty set. -/
def get_saved_networks_nmcli (hasNmcli : Bool) (retcode : Int) (stdout : String)
    (ssidOf : String → String) : Finset String :=
  if !hasNmcli then ∅
  else if retcode ≠ 0 ∨ stdout = "" then ∅
  else
    let names := (pySplit stdout '\n').filterMap (fun line =>
      if line = "" then none
      else
        let nt := pyPartitionColon line
        if nt.2 = "wifi" ∨ nt.2 = "802-11-wireless" then some nt.1 else none)
    names.foldl (fun acc name =>
      let ssid := ssidOf name
      if ssid ≠ "" then insert (pyStrip ssid) acc else acc) ∅

/-- The saved set of `WifiScreen.refresh_networks` (line 1178):
`saved = {s.strip() for s in saved_wpa} | {s.strip() for s in saved_nm}`. -/
def savedUnion (saved_wpa saved_nm : Finset String) : Finset String :=
  saved_wpa.image pyStrip ∪ saved_nm.image pyStrip

/-- Claim C2: For every pair of saved-network backend results (including empty
sets, which is what a backend yields on failure), the saved set used by the
Wi-Fi refresh equals the set union of the two backends' SSID sets, and a
failure of either backend degrades to an empty contribution rather than a
fatal error.  (Backend results consist of already-stripped SSIDs, which the
hypotheses record.) -/
theorem C2_saved_set_is_union (saved_wpa saved_nm : Finset String)
    (hwpa : ∀ s ∈ saved_wpa, pyStrip s = s) (hnm : ∀ s ∈ saved_nm, pyStrip s = s) :
    savedUnion saved_wpa saved_nm = saved_wpa ∪ saved_nm ∧
    (get_saved_networks_wpa_cli "").1 = ∅ ∧
    (∀ r o f, get_saved_networks_nmcli false r o f = ∅) ∧
    (∀ h o f r, r ≠ 0 → get_saved_networks_nmcli h r o f = ∅) ∧
    (∀ h r f, get_saved_networks_nmcli h r "" f = ∅) ∧
    savedUnion ∅ saved_nm = saved_nm ∧
    savedUnion saved_wpa ∅ = saved_wpa := by
  have himg : ∀ (A : Finset String), (∀ s ∈ A, pyStrip s = s) → A.image pyStrip = A := by
    intro A hA
    rw [Finset.image_congr (g := id) (fun x hx => hA x hx), Finset.image_id]
  refine ⟨?_, rfl, ?_, ?_, ?_, ?_, ?_⟩
  · unfold savedUnion
    rw [himg _ hwpa, himg _ hnm]
  · intro r o f
    simp [get_saved_networks_nmcli]
  · intro h o f r hr
    cases h <;> simp [get_saved_networks_nmcli, hr]
  · intro h r f
    rcases eq_or_ne r 0 with hr | hr <;> cases h <;>
      simp [get_saved_networks_nmcli, hr]
  · unfold savedUnion
    rw [himg _ hnm]
    simp
  · unfold savedUnion
    rw [himg _ hwpa]
    simp

/-- Witness for C2 at the spec's scenario sets `{"Home", "Office"}` and
`{"Cafe"}`. -/
theorem C2_saved_set_is_union_witness :
    (∀ s ∈ ({"Home", "Office"} : Finset String), pyStrip s = s) ∧
    (∀ s ∈ ({"Cafe"} : Finset String), pyStrip s = s) ∧
    savedUnion {"Home", "Office"} {"Cafe"}
      = ({"Home", "Office"} : Finset String) ∪ {"Cafe"} ∧
    get_saved_networks_nmcli false 0 "x" (fun _ => "") = ∅ := by
  refine ⟨by decide, by decide, ?_, ?_⟩
  · exact (C2_saved_set_is_union {"Home", "Office"} {"Cafe"} (by decide) (by decide)).1
  · exact (C2_saved_set_is_union {"Home", "Office"} {"Cafe"}
      (by decide) (by decide)).2.2.1 0 "x" (fun _ => "")

/-! Section: The Wi-Fi reconciler: `WifiScreen.refresh_networks` (lines 1165-1201) -/

/-- One row of the `in_range` list:
`{"ssid": s, "signal": ..., "security": ..., "current": (s == current_ssid)}`. -/
structure NetworkEntry where
  ssid : String
  signal : Int
  security : String
  current : Bool
deriving DecidableEq, Repr

/-- Numeric value of the first sort-key component `x["current"] is False`
(Python `False < True`, so a current entry sorts first). -/
def kcur (x : NetworkEntry) : Nat := if x.current then 0 else 1

/-- The sort order of `in_range.sort(key=lambda x: (x["current"] is False,
-x["signal"]))`: lexicographic on (current-last-bit, negated signal). -/
def entryLe (a b : NetworkEntry) : Prop :=
  kcur a < kcur b ∨ (kcur a = kcur b ∧ b.signal ≤ a.signal)

instance instDecEntryLe : DecidableRel entryLe :=
  fun _ _ => inferInstanceAs (Decidable (_ ∨ _))

instance instEntryLeTotal : IsTotal NetworkEntry entryLe := by
  constructor
  intro a b
  unfold entryLe
  omega

instance instEntryLeTrans : IsTrans NetworkEntry entryLe := by
  constructor
  intro a b c h₁ h₂
  unfold entryLe at *
  omega

/-- The `in_range` construction loop of `refresh_networks` (lines 1186-1195):
for each merged entry, strip the SSID, keep it when non-empty and saved, and
tag it `current` when it equals the current SSID. -/
def buildInRange (merged : List (String × ScanInfo)) (saved : Finset String)
    (current_ssid : String) : List NetworkEntry :=
  merged.filterMap (fun e =>
    let s := pyStrip e.1
    if s ≠ "" ∧ s ∈ saved then
      some ⟨s, e.2.signal, e.2.security, decide (s = current_ssid)⟩
    else none)

/-- The result dict `{"in_range": ..., "out_of_range": ...}` of the
`refresh_networks` background task. -/
structure RefreshResult where
  in_range : List NetworkEntry
  out_of_range : List String
deriving Repr

/-- The background task `_task` of `WifiScreen.refresh_networks`
(lines 1175-1201), as a function of the two saved-network backend results,
the two scan backend results and the current SSID:
saved union, scan merge, `in_range` build + stable sort
(current first, then signal descending), and
`out_of_range = sorted((saved - in_range_names) - ({current_ssid} if
current_ssid else set()))`. -/
def refresh_networks_task (saved_wpa saved_nm : Finset String)
    (nm wp : List (String × ScanInfo)) (current_ssid : String) : RefreshResult :=
  let saved := savedUnion saved_wpa saved_nm
  let merged := mergeScans nm wp
  let in_range := List.insertionSort entryLe (buildInRange merged saved current_ssid)
  let in_range_names := (in_range.map NetworkEntry.ssid).toFinset
  let out_of_range := Finset.sort pyStrLe
    ((saved \ in_range_names) \ (if current_ssid ≠ "" then {current_ssid} else ∅))
  ⟨in_range, out_of_range⟩

/-! Key bookkeeping for the merged dict, needed for the ranking claim (the
merged dict has pairwise-distinct keys, all coming from one of the two
backend dicts). -/

theorem mapGet_ne_none_of_mem (m : List (String × ScanInfo)) (k : String)
    (h : k ∈ dictKeys m) : mapGet m k ≠ none := by
  induction m with
  | nil => simp [dictKeys] at h
  | cons p t ih =>
    simp only [dictKeys, List.map_cons, List.mem_cons] at h
    simp only [mapGet]
    by_cases hp : p.1 = k
    · simp [hp]
    · rcases h with h | h
      · exact absurd h.symm hp
      · simpa [hp] using ih (by simpa [dictKeys] using h)

theorem dictKeys_mapSet_mem (m : List (String × ScanInfo)) (k : String) (v : ScanInfo)
    (h : k ∈ dictKeys m) : dictKeys (mapSet m k v) = dictKeys m := by
  induction m with
  | nil => simp [dictKeys] at h
  | cons p t ih =>
    simp only [dictKeys, List.map_cons, List.mem_cons] at h
    by_cases hp : p.1 = k
    · simp [mapSet, hp, dictKeys]
    · rcases h with h | h
      · exact absurd h.symm hp
      · simp only [mapSet, hp, if_false, dictKeys, List.map_cons]
        rw [show (mapSet t k v).map Prod.fst = dictKeys (mapSet t k v) from rfl,
          ih (by simpa [dictKeys] using h)]
        rfl

theorem dictKeys_mapSet_not_mem (m : List (String × ScanInfo)) (k : String) (v : ScanInfo)
    (h : k ∉ dictKeys m) : dictKeys (mapSet m k v) = dictKeys m ++ [k] := by
  induction m with
  | nil => simp [mapSet, dictKeys]
  | cons p t ih =>
    simp only [dictKeys, List.map_cons, List.mem_cons, not_or] at h
    simp only [mapSet]
    rw [if_neg (fun h' => h.1 h'.symm)]
    simp only [dictKeys, List.map_cons]
    rw [show (mapSet t k v).map Prod.fst = dictKeys (mapSet t k v) from rfl,
      ih (by simpa [dictKeys] using h.2)]
    simp [dictKeys]

theorem scanStep_keys (m : List (String × ScanInfo)) (e : String × ScanInfo) :
    dictKeys (scanStep m e) = dictKeys m ∨
    (e.1 ∉ dictKeys m ∧ dictKeys (scanStep m e) = dictKeys m ++ [e.1]) := by
  unfold scanStep
  cases hg : mapGet m e.1 with
  | none =>
    right
    have hm : e.1 ∉ dictKeys m := fun hm => mapGet_ne_none_of_mem _ _ hm hg
    exact ⟨hm, dictKeys_mapSet_not_mem _ _ _ hm⟩
  | some old =>
    by_cases hs : e.2.signal > old.signal
    · left
      simp only [hs, if_true]
      refine dictKeys_mapSet_mem _ _ _ ?_
      by_contra hm
      rw [mapGet_eq_none_of_not_mem _ _ hm] at hg
      exact Option.noConfusion hg
    · left
      simp [hs]

theorem foldl_scanStep_nodup (l : List (String × ScanInfo)) (m : List (String × ScanInfo))
    (hm : DictKeysNodup m) : DictKeysNodup (l.foldl scanStep m) := by
  induction l generalizing m with
  | nil => exact hm
  | cons e t ih =>
    rw [List.foldl_cons]
    refine ih _ ?_
    rcases scanStep_keys m e with h | ⟨hmem, h⟩
    · unfold DictKeysNodup
      rw [h]
      exact hm
    · unfold DictKeysNodup
      rw [h]
      simpa [List.nodup_append] using ⟨hm, hmem⟩

theorem foldl_scanStep_keys_subset (l : List (String × ScanInfo))
    (m : List (String × ScanInfo)) :
    ∀ x ∈ dictKeys (l.foldl scanStep m), x ∈ dictKeys m ∨ x ∈ dictKeys l := by
  induction l generalizing m with
  | nil => exact fun x hx => Or.inl hx
  | cons e t ih =>
    intro x hx
    rw [List.foldl_cons] at hx
    rcases ih _ x hx with h | h
    · rcases scanStep_keys m e with hk | ⟨_, hk⟩
      · rw [hk] at h
        exact Or.inl h
      · rw [hk] at h
        rcases List.mem_append.mp h with h | h
        · exact Or.inl h
        · right
          simp only [List.mem_singleton] at h
          simp [dictKeys, h]
    · right
      simp only [dictKeys, List.map_cons, List.mem_cons]
      right
      simpa [dictKeys] using h

theorem mergeScans_nodup (nm wp : List (String × ScanInfo)) :
    DictKeysNodup (mergeScans nm wp) :=
  foldl_scanStep_nodup _ _ (by simp [DictKeysNodup, dictKeys])

theorem mergeScans_keys_subset (nm wp : List (String × ScanInfo)) :
    ∀ x ∈ dictKeys (mergeScans nm wp), x ∈ dictKeys nm ++ dictKeys wp := by
  intro x hx
  rcases foldl_scanStep_keys_subset _ _ x hx with h | h
  · simp [dictKeys] at h
  · simpa [dictKeys] using h

/-! Section: C3: ranking of `in_range` -/

theorem pairwise_filterMap_of {α β : Type} (R : α → α → Prop) (S : β → β → Prop)
    (f : α → Option β) (l : List α)
    (H : ∀ a b, R a b → ∀ c, f a = some c → ∀ d, f b = some d → S c d)
    (hl : l.Pairwise R) : (l.filterMap f).Pairwise S := by
  induction l with
  | nil => simp
  | cons a t ih =>
    rw [List.filterMap_cons]
    rcases List.pairwise_cons.mp hl with ⟨ha, ht⟩
    cases hfa : f a with
    | none => exact ih ht
    | some c =>
      refine List.pairwise_cons.mpr ⟨?_, ih ht⟩
      intro d hd
      rcases List.mem_filterMap.mp hd with ⟨b, hb, hfb⟩
      exact H a b (ha b hb) c hfa d hfb

/-- The per-entry body of the `in_range` loop, named for reuse in proofs. -/
def inRangeRow (saved : Finset String) (current_ssid : String)
    (e : String × ScanInfo) : Option NetworkEntry :=
  if pyStrip e.1 ≠ "" ∧ pyStrip e.1 ∈ saved then
    some ⟨pyStrip e.1, e.2.signal, e.2.security, decide (pyStrip e.1 = current_ssid)⟩
  else none

theorem buildInRange_eq (merged : List (String × ScanInfo)) (saved : Finset String)
    (cs : String) : buildInRange merged saved cs = merged.filterMap (inRangeRow saved cs) := rfl

theorem inRangeRow_some_inv (saved : Finset String) (cs : String)
    (e : String × ScanInfo) (c : NetworkEntry) (h : inRangeRow saved cs e = some c) :
    c.ssid = pyStrip e.1 ∧ c.current = decide (pyStrip e.1 = cs) := by
  unfold inRangeRow at h
  split at h
  · cases h
    exact ⟨rfl, rfl⟩
  · exact Option.noConfusion h

theorem buildInRange_current_ssid (merged : List (String × ScanInfo))
    (saved : Finset String) (cs : String) :
    ∀ x ∈ buildInRange merged saved cs, x.current = true → x.ssid = cs := by
  intro x hx hc
  rw [buildInRange_eq] at hx
  rcases List.mem_filterMap.mp hx with ⟨e, _, hfe⟩
  rcases inRangeRow_some_inv _ _ _ _ hfe with ⟨hssid, hcur⟩
  rw [hc] at hcur
  rw [hssid, of_decide_eq_true hcur.symm]

theorem buildInRange_ssid_pairwise_ne (merged : List (String × ScanInfo))
    (saved : Finset String) (cs : String)
    (hnd : DictKeysNodup merged) (ht : ∀ k ∈ dictKeys merged, pyStrip k = k) :
    (buildInRange merged saved cs).Pairwise (fun a b => a.ssid ≠ b.ssid) := by
  have h0 : (merged.map Prod.fst).Pairwise (fun a b => a ≠ b) := hnd
  have h1 : merged.Pairwise (fun p q => p.1 ≠ q.1) := List.pairwise_map.mp h0
  have h2 : merged.Pairwise (fun p q => pyStrip p.1 ≠ pyStrip q.1) := by
    refine h1.imp_of_mem ?_
    intro p q hp hq hne
    rw [ht p.1 (List.mem_map_of_mem Prod.fst hp), ht q.1 (List.mem_map_of_mem Prod.fst hq)]
    exact hne
  rw [buildInRange_eq]
  refine pairwise_filterMap_of _ _ _ _ ?_ h2
  intro a b hR c hc d hd
  rcases inRangeRow_some_inv _ _ _ _ hc with ⟨hc1, _⟩
  rcases inRangeRow_some_inv _ _ _ _ hd with ⟨hd1, _⟩
  rw [hc1, hd1]
  exact hR

theorem buildInRange_no_two_current (merged : List (String × ScanInfo))
    (saved : Finset String) (cs : String)
    (hnd : DictKeysNodup merged) (ht : ∀ k ∈ dictKeys merged, pyStrip k = k) :
    (buildInRange merged saved cs).Pairwise
      (fun a b => ¬(a.current = true ∧ b.current = true)) := by
  refine (buildInRange_ssid_pairwise_ne merged saved cs hnd ht).imp_of_mem ?_
  intro a b ha hb hne hc
  exact hne (by
    rw [buildInRange_current_ssid merged saved cs a ha hc.1,
      buildInRange_current_ssid merged saved cs b hb hc.2])

theorem entryLe_of_noncurrent (a b : NetworkEntry) (hab : entryLe a b)
    (ha : a.current = false) : b.current = false ∧ b.signal ≤ a.signal := by
  unfold entryLe kcur at hab
  rw [ha] at hab
  cases hb : b.current <;> rw [hb] at hab <;> simp at hab
  exact ⟨rfl, hab⟩

theorem countP_le_one_of_pairwise_not_both {α : Type} (p : α → Bool) (l : List α)
    (h : l.Pairwise (fun a b => ¬(p a = true ∧ p b = true))) : l.countP p ≤ 1 := by
  induction l with
  | nil => simp
  | cons a t ih =>
    rcases List.pairwise_cons.mp h with ⟨ha, ht⟩
    by_cases hp : p a = true
    · rw [List.countP_cons_of_pos _ _ hp]
      have hz : t.countP p = 0 := List.countP_eq_zero.mpr (fun b hb hpb => ha b hb ⟨hp, hpb⟩)
      omega
    · rw [List.countP_cons_of_neg _ _ hp]
      exact ih ht

/-- Claim C3: For every refresh result, the `in_range` list is sorted so that
the entry marked current (if any) comes first and all remaining entries
appear in non-increasing order of signal; the sort key uses only the
`current` flag and the signal, so at most one entry is current and no
secondary tiebreak is applied.  (The hypotheses record that backend dicts
have unique, already-stripped SSID keys.) -/
theorem C3_in_range_ranking (saved_wpa saved_nm : Finset String)
    (nm wp : List (String × ScanInfo)) (current_ssid : String)
    (hnm : DictKeysNodup nm) (hwp : DictKeysNodup wp)
    (htrim : ∀ k ∈ dictKeys nm ++ dictKeys wp, pyStrip k = k) :
    (∀ x ∈ (refresh_networks_task saved_wpa saved_nm nm wp current_ssid).in_range,
       x.current = true →
       (refresh_networks_task saved_wpa saved_nm nm wp current_ssid).in_range.head?
         = some x) ∧
    (refresh_networks_task saved_wpa saved_nm nm wp current_ssid).in_range.Pairwise
       (fun a b => a.current = false → b.signal ≤ a.signal) ∧
    (refresh_networks_task saved_wpa saved_nm nm wp current_ssid).in_range.countP
       (fun x => x.current) ≤ 1 := by
  have hmt : ∀ k ∈ dictKeys (mergeScans nm wp), pyStrip k = k :=
    fun k hk => htrim k (mergeScans_keys_subset nm wp k hk)
  have hmn : DictKeysNodup (mergeScans nm wp) := mergeScans_nodup nm wp
  have hin : (refresh_networks_task saved_wpa saved_nm nm wp current_ssid).in_range
      = List.insertionSort entryLe
          (buildInRange (mergeScans nm wp) (savedUnion saved_wpa saved_nm) current_ssid) :=
    rfl
  set r0 := buildInRange (mergeScans nm wp) (savedUnion saved_wpa saved_nm) current_ssid
    with hr0
  have hsorted : (List.insertionSort entryLe r0).Pairwise entryLe :=
    List.sorted_insertionSort entryLe r0
  have hperm : List.Perm (List.insertionSort entryLe r0) r0 :=
    List.perm_insertionSort entryLe r0
  have hnoTwo0 : r0.Pairwise (fun a b => ¬(a.current = true ∧ b.current = true)) :=
    buildInRange_no_two_current _ _ _ hmn hmt
  have hnoTwo : (List.insertionSort entryLe r0).Pairwise
      (fun a b => ¬(a.current = true ∧ b.current = true)) :=
    (hperm.pairwise_iff (fun h hc => h ⟨hc.2, hc.1⟩)).mpr hnoTwo0
  refine ⟨?_, ?_, ?_⟩
  · rw [hin]
    intro x hx hxc
    cases hL : List.insertionSort entryLe r0 with
    | nil =>
      rw [hL] at hx
      simp at hx
    | cons h t =>
      rw [hL] at hx hsorted hnoTwo
      rcases List.pairwise_cons.mp hsorted with ⟨hhle, _⟩
      rcases List.pairwise_cons.mp hnoTwo with ⟨hhnt, _⟩
      rcases List.mem_cons.mp hx with rfl | hxt
      · rfl
      · by_cases hhc : h.current = true
        · exact absurd ⟨hhc, hxc⟩ (hhnt x hxt)
        · have hhcf : h.current = false := by
            revert hhc
            cases h.current <;> simp
          rcases entryLe_of_noncurrent h x (hhle x hxt) hhcf with ⟨hxf, _⟩
          rw [hxc] at hxf
          exact Bool.noConfusion hxf
  · rw [hin]
    exact hsorted.imp (fun hab ha => (entryLe_of_noncurrent _ _ hab ha).2)
  · rw [hin]
    exact countP_le_one_of_pairwise_not_both _ _ hnoTwo

/-- Witness for C3 at the spec's scenario: saved `{"Home", "Office", "Cafe"}`,
nmcli scan `{"Home": 80, "Cafe": 60}`, current `"Home"`. -/
theorem C3_in_range_ranking_witness :
    (∀ k ∈ dictKeys [("Home", ScanInfo.mk 80 "WPA2"), ("Cafe", ScanInfo.mk 60 "")]
        ++ dictKeys [], pyStrip k = k) ∧
    (refresh_networks_task {"Home", "Office", "Cafe"} ∅
        [("Home", ScanInfo.mk 80 "WPA2"), ("Cafe", ScanInfo.mk 60 "")] []
        "Home").in_range.Pairwise
       (fun a b => a.current = false → b.signal ≤ a.signal) ∧
    (refresh_networks_task {"Home", "Office", "Cafe"} ∅
        [("Home", ScanInfo.mk 80 "WPA2"), ("Cafe", ScanInfo.mk 60 "")] []
        "Home").in_range.countP (fun x => x.current) ≤ 1 := by
  refine ⟨by decide, ?_, ?_⟩
  · exact (C3_in_range_ranking {"Home", "Office", "Cafe"} ∅
      [("Home", ScanInfo.mk 80 "WPA2"), ("Cafe", ScanInfo.mk 60 "")] [] "Home"
      (by decide) (by decide) (by decide)).2.1
  · exact (C3_in_range_ranking {"Home", "Office", "Cafe"} ∅
      [("Home", ScanInfo.mk 80 "WPA2"), ("Cafe", ScanInfo.mk 60 "")] [] "Home"
      (by decide) (by decide) (by decide)).2.2

/-! Section: C4: `out_of_range` -/

/-- Claim C4: For every refresh result, `out_of_range` equals the saved set
minus the SSIDs in `in_range` minus the current SSID (when non-empty),
emitted as a sorted list; consequently it never contains the current SSID
and never contains any SSID present in `in_range`. -/
theorem C4_out_of_range (saved_wpa saved_nm : Finset String)
    (nm wp : List (String × ScanInfo)) (current_ssid : String) :
    (∀ s, s ∈ (refresh_networks_task saved_wpa saved_nm nm wp current_ssid).out_of_range ↔
      (s ∈ savedUnion saved_wpa saved_nm ∧
       s ∉ (refresh_networks_task saved_wpa saved_nm nm wp current_ssid).in_range.map
          NetworkEntry.ssid ∧
       (current_ssid ≠ "" → s ≠ current_ssid))) ∧
    (current_ssid ≠ "" →
      current_ssid ∉ (refresh_networks_task saved_wpa saved_nm nm wp
        current_ssid).out_of_range) ∧
    (∀ x ∈ (refresh_networks_task saved_wpa saved_nm nm wp current_ssid).in_range,
      x.ssid ∉ (refresh_networks_task saved_wpa saved_nm nm wp
        current_ssid).out_of_range) ∧
    (refresh_networks_task saved_wpa saved_nm nm wp
      current_ssid).out_of_range.Sorted pyStrLe := by
  have hout : (refresh_networks_task saved_wpa saved_nm nm wp current_ssid).out_of_range
      = Finset.sort pyStrLe
        ((savedUnion saved_wpa saved_nm
            \ ((refresh_networks_task saved_wpa saved_nm nm wp
                current_ssid).in_range.map NetworkEntry.ssid).toFinset)
          \ (if current_ssid ≠ "" then {current_ssid} else ∅)) := rfl
  have hmem : ∀ s,
      s ∈ (refresh_networks_task saved_wpa saved_nm nm wp current_ssid).out_of_range ↔
      (s ∈ savedUnion saved_wpa saved_nm ∧
       s ∉ (refresh_networks_task saved_wpa saved_nm nm wp current_ssid).in_range.map
          NetworkEntry.ssid ∧
       (current_ssid ≠ "" → s ≠ current_ssid)) := by
    intro s
    rw [hout, Finset.mem_sort, Finset.mem_sdiff, Finset.mem_sdiff]
    by_cases hcs : current_ssid ≠ ""
    · rw [if_pos hcs]
      simp only [Finset.mem_singleton, List.mem_toFinset]
      constructor
      · rintro ⟨⟨h1, h2⟩, h3⟩
        exact ⟨h1, h2, fun _ => h3⟩
      · rintro ⟨h1, h2, h3⟩
        exact ⟨⟨h1, h2⟩, h3 hcs⟩
    · rw [if_neg hcs]
      simp only [Finset.not_mem_empty, not_false_iff, and_true, List.mem_toFinset]
      constructor
      · rintro ⟨h1, h2⟩
        exact ⟨h1, h2, fun h => absurd h hcs⟩
      · rintro ⟨h1, h2, _⟩
        exact ⟨h1, h2⟩
  refine ⟨hmem, ?_, ?_, ?_⟩
  · intro hcs hmemc
    exact ((hmem current_ssid).mp hmemc).2.2 hcs rfl
  · intro x hx hmemx
    exact ((hmem x.ssid).mp hmemx).2.1 (List.mem_map_of_mem NetworkEntry.ssid hx)
  · rw [hout]
    exact Finset.sort_sorted pyStrLe _

/-- Witness for C4 at the spec's scenario: saved `{"Home", "Office"}`, scan
`{"Home": 80}`, current `"Home"` (so `out_of_range` must not contain
`"Home"`). -/
theorem C4_out_of_range_witness :
    ("Home" : String) ≠ "" ∧
    "Home" ∉ (refresh_networks_task {"Home", "Office"} ∅
      [("Home", ScanInfo.mk 80 "")] [] "Home").out_of_range :=
  ⟨by decide,
   (C4_out_of_range {"Home", "Office"} ∅ [("Home", ScanInfo.mk 80 "")] [] "Home").2.1
     (by decide)⟩

/-! Section: C5: the busy guard (`show_busy_indicator` / `hide_busy_indicator`,
lines 193-232).

State: the global counter `BUSY_DEPTH` (a Python int) and whether the
overlay widget `BUSY_OVERLAY` is installed. -/

structure BusyState where
  depth : Int
  visible : Bool
deriving DecidableEq, Repr

/-- `show_busy_indicator`: `BUSY_DEPTH += 1; if BUSY_OVERLAY: return`;
otherwise the overlay is created and installed. -/
def show_busy_indicator (s : BusyState) : BusyState :=
  if s.visible then { depth := s.depth + 1, visible := s.visible }
  else { depth := s.depth + 1, visible := true }

/-- `hide_busy_indicator`: `BUSY_DEPTH = max(0, BUSY_DEPTH - 1);
if BUSY_OVERLAY and BUSY_DEPTH == 0:` remove the overlay. -/
def hide_busy_indicator (s : BusyState) : BusyState :=
  if s.visible ∧ max 0 (s.depth - 1) = 0 then
    { depth := max 0 (s.depth - 1), visible := false }
  else
    { depth := max 0 (s.depth - 1), visible := s.visible }

/-- An enter (`show_busy_indicator`) or exit (`hide_busy_indicator`) call. -/
inductive BusyOp where
  | enter
  | exit
deriving DecidableEq, Repr

def busyStep (s : BusyState) : BusyOp → BusyState
  | .enter => show_busy_indicator s
  | .exit => hide_busy_indicator s

/-- Run a finite sequence of enter/exit calls from the initial state
(`BUSY_DEPTH = 0`, no overlay). -/
def busyRun (ops : List BusyOp) : BusyState :=
  ops.foldl busyStep ⟨0, false⟩

theorem show_busy_depth (s : BusyState) :
    (show_busy_indicator s).depth = s.depth + 1 := by
  unfold show_busy_indicator
  split_ifs <;> rfl

theorem show_busy_visible (s : BusyState) :
    (show_busy_indicator s).visible = true := by
  unfold show_busy_indicator
  by_cases hv : s.visible = true <;> simp [hv]

theorem hide_busy_depth (s : BusyState) :
    (hide_busy_indicator s).depth = max 0 (s.depth - 1) := by
  unfold hide_busy_indicator
  split_ifs <;> rfl

theorem hide_busy_visible (s : BusyState) :
    (hide_busy_indicator s).visible
      = (if s.visible = true ∧ max 0 (s.depth - 1) = 0 then false else s.visible) := by
  unfold hide_busy_indicator
  split_ifs <;> rfl

/-- The reachable-state invariant of the busy guard: the counter is
non-negative and the overlay is installed iff the counter is positive. -/
theorem busy_invariant (ops : List BusyOp) :
    0 ≤ (busyRun ops).depth ∧
    ((busyRun ops).visible = true ↔ 0 < (busyRun ops).depth) := by
  suffices h : ∀ (s : BusyState), 0 ≤ s.depth → (s.visible = true ↔ 0 < s.depth) →
      0 ≤ (ops.foldl busyStep s).depth ∧
      ((ops.foldl busyStep s).visible = true ↔ 0 < (ops.foldl busyStep s).depth) by
    exact h ⟨0, false⟩ (by simp) (by simp)
  induction ops with
  | nil => exact fun s h1 h2 => ⟨h1, h2⟩
  | cons op t ih =>
    intro s h1 h2
    rw [List.foldl_cons]
    cases op
    · refine ih _ ?_ ?_
      · show 0 ≤ (show_busy_indicator s).depth
        rw [show_busy_depth]
        omega
      · show (show_busy_indicator s).visible = true ↔ 0 < (show_busy_indicator s).depth
        rw [show_busy_depth, show_busy_visible]
        constructor
        · intro _; omega
        · intro _; rfl
    · refine ih _ ?_ ?_
      · show 0 ≤ (hide_busy_indicator s).depth
        rw [hide_busy_depth]
        omega
      · show (hide_busy_indicator s).visible = true ↔ 0 < (hide_busy_indicator s).depth
        rw [hide_busy_depth, hide_busy_visible]
        by_cases hc : s.visible = true ∧ max 0 (s.depth - 1) = 0
        · rw [if_pos hc]
          constructor
          · intro h; exact Bool.noConfusion h
          · intro h; omega
        · rw [if_neg hc]
          by_cases hv : s.visible = true
          · have hd := h2.mp hv
            have hz : ¬ max 0 (s.depth - 1) = 0 := fun h => hc ⟨hv, h⟩
            constructor
            · intro _; omega
            · intro _; exact hv
          · have hd : ¬ 0 < s.depth := fun h => hv (h2.mpr h)
            constructor
            · intro h; exact absurd h hv
            · intro h; omega

/-- Claim C5: For every finite sequence of enter (`show_busy_indicator`) and
exit (`hide_busy_indicator`) calls, the busy counter never goes negative
(exit floors it at 0), the indicator is visible iff the counter is greater
than 0, the indicator is shown (becomes visible) only on the 0-to-1
transition, and it is hidden only on the 1-to-0 transition. -/
theorem C5_busy_guard (ops : List BusyOp) :
    0 ≤ (busyRun ops).depth ∧
    ((busyRun ops).visible = true ↔ 0 < (busyRun ops).depth) ∧
    (((show_busy_indicator (busyRun ops)).visible = true ∧
        (busyRun ops).visible = false) ↔
      ((busyRun ops).depth = 0 ∧ (show_busy_indicator (busyRun ops)).depth = 1)) ∧
    (((hide_busy_indicator (busyRun ops)).visible = false ∧
        (busyRun ops).visible = true) ↔
      ((busyRun ops).depth = 1 ∧ (hide_busy_indicator (busyRun ops)).depth = 0)) := by
  obtain ⟨h1, h2⟩ := busy_invariant ops
  refine ⟨h1, h2, ?_, ?_⟩
  · rw [show_busy_depth, show_busy_visible]
    by_cases hv : (busyRun ops).visible = true
    · have hd := h2.mp hv
      constructor
      · rintro ⟨_, hvf⟩
        rw [hvf] at hv
        exact Bool.noConfusion hv
      · rintro ⟨hd0, _⟩
        omega
    · have hvf : (busyRun ops).visible = false := by
        revert hv; cases (busyRun ops).visible <;> simp
      have hd : ¬ 0 < (busyRun ops).depth := fun h => hv (h2.mpr h)
      constructor
      · rintro ⟨_, _⟩
        omega
      · rintro ⟨_, _⟩
        exact ⟨rfl, hvf⟩
  · rw [hide_busy_depth, hide_busy_visible]
    by_cases hc : (busyRun ops).visible = true ∧ max 0 ((busyRun ops).depth - 1) = 0
    · have hd := h2.mp hc.1
      rw [if_pos hc]
      have hcz := hc.2
      constructor
      · rintro ⟨_, _⟩
        omega
      · rintro ⟨_, _⟩
        exact ⟨rfl, hc.1⟩
    · rw [if_neg hc]
      by_cases hv : (busyRun ops).visible = true
      · have hd := h2.mp hv
        have hz : ¬ max 0 ((busyRun ops).depth - 1) = 0 := fun h => hc ⟨hv, h⟩
        constructor
        · rintro ⟨hvf, _⟩
          rw [hv] at hvf
          exact Bool.noConfusion hvf
        · rintro ⟨_, _⟩
          omega
      · have hd : ¬ 0 < (busyRun ops).depth := fun h => hv (h2.mpr h)
        constructor
        · rintro ⟨_, hvt⟩
          exact absurd hvt hv
        · rintro ⟨_, _⟩
          omega

/-! Section: C6 / C10: the connect workflow
(`connect_wpa_cli`, `connect_nmcli`, `WifiScreen._connect_to`) -/

/-- The network-id search loop of `connect_wpa_cli` (lines 472-477) over the
header-stripped lines of `wpa_cli list_networks`: the first row with at least
two tab-separated fields whose second field equals `ssid` yields its first
field; `break` stops at that row. -/
def findNid : List String → String → Option String
  | [], _ => none
  | line :: rest, ssid =>
    match pySplit line '\t' with
    | nid :: s :: _ => if s = ssid then some nid else findNid rest ssid
    | _ => findNid rest ssid

/-- `connect_wpa_cli` (lines 468-483), as a function of the
`list_networks` output and the outputs of the three follow-up commands
(`select_network`, `enable_network`, `save_config`), which the source binds
to `_` and ignores.  Returns `False` when the output is empty
(`if not out`), when no row matches, or when the matched row's id is the
empty string (`if not nid`); otherwise `True`. -/
def connect_wpa_cli (listOut selOut enOut saveOut ssid : String) : Bool :=
  if listOut = "" then false
  else
    match findNid ((pySplit listOut '\n').drop 1) ssid with
    | none => false
    | some nid => if nid = "" then false else true

/-- `connect_nmcli` (lines 485-491): succeeds iff the `nmcli device wifi
connect` return code is 0. -/
def connect_nmcli (retcode : Int) : Bool :=
  if retcode ≠ 0 then false else true

/-- Success condition asserted by claim C10, in the claim's words (refinement
comparison only): output non-empty and some row after the header has SSID
field equal to `ssid`. -/
def hasRowWithSsid (listOut ssid : String) : Bool :=
  decide (listOut ≠ "") &&
    ((pySplit listOut '\n').drop 1).any (fun line =>
      match pySplit line '\t' with
      | _ :: s :: _ => decide (s = ssid)
      | _ => false)

/-- Coordinating-thread effects of the `_done` completion of
`WifiScreen._connect_to` (lines 1256-1265). -/
structure ConnectEffects where
  refreshed : Bool
  geoipScheduled : Bool
  errorShown : Bool
deriving DecidableEq, Repr

/-- The `_task` body of `WifiScreen._connect_to` (lines 1248-1255), as a
function of the primary (wpa_cli) result, nmcli availability, and the
secondary (nmcli) result: `ok = connect_wpa_cli(...)`; `if not ok and
has_cmd("nmcli"): ok = connect_nmcli(...)`; `if not ok: raise RuntimeError`.
Returns (whether the secondary backend was attempted, the task outcome). -/
def connect_to_task (wpaOk nmAvail nmOk : Bool) : Bool × Except String Bool :=
  let step := if !wpaOk && nmAvail then (true, nmOk) else (false, wpaOk)
  (step.1, if !step.2 then Except.error "Failed to connect" else Except.ok true)

/-- The `_done` completion of `_connect_to`: on failure show an error (and
touch nothing else); on success refresh the state store and schedule a
geolocation lookup after a 1 s settle delay. -/
def connect_to_done (outcome : Except String Bool) : ConnectEffects :=
  match outcome with
  | .error _ => ⟨false, false, true⟩
  | .ok _ => ⟨true, true, false⟩

/-- Claim C6: For every connect attempt, the primary backend (wpa_cli) is tried
first; the secondary (nmcli direct connect) is attempted exactly when the
primary reports failure and nmcli is available; the overall operation
succeeds iff at least one attempted backend succeeds; on success the
completion refreshes the State Store and schedules a delayed geolocation
lookup, and on failure it surfaces an error and performs no refresh. -/
theorem C6_connect_fallback (wpaOk nmAvail nmOk : Bool) :
    (connect_to_task wpaOk nmAvail nmOk).1 = (!wpaOk && nmAvail) ∧
    (connect_to_task wpaOk nmAvail nmOk).2.isOk
      = (wpaOk || ((connect_to_task wpaOk nmAvail nmOk).1 && nmOk)) ∧
    ((connect_to_task wpaOk nmAvail nmOk).2.isOk = true →
      connect_to_done (connect_to_task wpaOk nmAvail nmOk).2
        = ⟨true, true, false⟩) ∧
    ((connect_to_task wpaOk nmAvail nmOk).2.isOk = false →
      connect_to_done (connect_to_task wpaOk nmAvail nmOk).2
        = ⟨false, false, true⟩) := by
  cases wpaOk <;> cases nmAvail <;> cases nmOk <;> decide

/-- Witness for C6 at the spec's scenario: primary backend fails, nmcli is
available and succeeds — the attempt succeeds and triggers a refresh plus a
geolocation lookup. -/
theorem C6_connect_fallback_witness :
    (connect_to_task false true true).2.isOk = true ∧
    connect_to_done (connect_to_task false true true).2 = ⟨true, true, false⟩ :=
  ⟨by decide, (C6_connect_fallback false true true).2.2.1 (by decide)⟩

/-- Counterexample to C10 as stated: `"header\n\tOffice"` is non-empty and
its (only) data row has SSID field `"Office"`, yet `connect_wpa_cli` returns
`False`, because the row's network-id field is empty and `if not nid` treats
`""` as missing. -/
theorem C10_counterexample :
    connect_wpa_cli "header\n\tOffice" "" "" "" "Office" = false ∧
    hasRowWithSsid "header\n\tOffice" "Office" = true := by
  decide

/-- Claim C10, amended: `connect_wpa_cli` returns success exactly when the
`list_networks` output is non-empty and the first header-skipped row whose
SSID field equals `ssid` exists *and has a non-empty id field*; the results
of the subsequent `select_network`, `enable_network` and `save_config`
commands are ignored, so a `True` result does not imply those commands
succeeded. -/
theorem C10_connect_wpa_cli_success (listOut sel1 en1 save1 sel2 en2 save2 ssid : String) :
    (connect_wpa_cli listOut sel1 en1 save1 ssid = true ↔
      (listOut ≠ "" ∧
        (match findNid ((pySplit listOut '\n').drop 1) ssid with
         | some nid => nid ≠ ""
         | none => False))) ∧
    connect_wpa_cli listOut sel1 en1 save1 ssid
      = connect_wpa_cli listOut sel2 en2 save2 ssid := by
  refine ⟨?_, rfl⟩
  unfold connect_wpa_cli
  by_cases hl : listOut = ""
  · simp [hl]
  · rw [if_neg hl]
    cases hf : findNid ((pySplit listOut '\n').drop 1) ssid with
    | none => simp [hl]
    | some nid =>
      by_cases hn : nid = "" <;> simp [hl, hn]

/-! Section: C7: the background job runner `run_bg` (lines 307-320) -/

/-- The `_worker` body of `run_bg`: `result = None; err = None; try: result =
fn() except Exception as e: err = e` — any exception is captured as a value,
the result stays `None`. -/
def run_bg_outcome {α ε : Type} (body : Except ε α) : Option α × Option ε :=
  match body with
  | .ok a => (some a, none)
  | .error e => (none, some e)

/-- The completion invocations `run_bg` marshals to the coordinating thread:
`_worker` always ends with one `Clock.schedule_once(_after, 0)`, and `_after`
calls `on_done(result, err)` once. -/
def run_bg {α ε : Type} (body : Except ε α) : List (Option α × Option ε) :=
  [run_bg_outcome body]

/-- Claim C7: For every job submitted to `run_bg`, an exception raised inside
the body is captured and never propagated; the completion callback is
invoked exactly once (as the single scheduled coordinating-thread call), and
when the body raised it receives the exception as the failure argument with
`result = None`, otherwise the body's value with `err = None`. -/
theorem C7_run_bg_completion {α ε : Type} (body : Except ε α) :
    (run_bg body).length = 1 ∧
    (∀ e, body = Except.error e → run_bg body = [(none, some e)]) ∧
    (∀ a, body = Except.ok a → run_bg body = [(some a, none)]) := by
  refine ⟨rfl, ?_, ?_⟩ <;> rintro x rfl <;> rfl

/-- Witness for C7: a body that raises delivers exactly one completion with
`result = None` and the exception as failure. -/
theorem C7_run_bg_completion_witness :
    run_bg (Except.error "boom" : Except String Nat) = [(none, some "boom")] :=
  (C7_run_bg_completion (Except.error "boom" : Except String Nat)).2.1 "boom" rfl

/-! Section: C8: the debounced geolocation trigger
(`RaspApTouchApp._trigger_geoip_soon`, lines 1462-1469).

`_trigger_geoip_soon(delay)` cancels the pending one-shot timer (if any) and
schedules a fresh one `delay` seconds ahead.  Given the trigger times of a
burst (strictly increasing), a scheduled timer fires iff no later trigger
cancels it first, i.e. iff its fire time is at most the next trigger time or
it is the last-scheduled timer. -/

def geoipFired (delay : ℚ) : List ℚ → List ℚ
  | [] => []
  | [t] => [t + delay]
  | t₁ :: t₂ :: rest =>
    (if t₁ + delay ≤ t₂ then [t₁ + delay] else []) ++ geoipFired delay (t₂ :: rest)

/-- Claim C8: For every burst of relevant state-change triggers within the
debounce window (each trigger strictly before the previous trigger's fire
time), each trigger cancels the pending timer and schedules a fresh one, so
exactly one geolocation lookup fires, at the debounce delay after the last
trigger of the burst (hence no earlier than `delay` after the first). -/
theorem C8_debounce_single_fire (delay t : ℚ) (ts : List ℚ) (hpos : 0 < delay)
    (hburst : List.Chain (fun a b => a < b ∧ b < a + delay) t ts) :
    geoipFired delay (t :: ts) = [(t :: ts).getLast (List.cons_ne_nil t ts) + delay] ∧
    t + delay ≤ (t :: ts).getLast (List.cons_ne_nil t ts) + delay := by
  induction ts generalizing t with
  | nil => exact ⟨rfl, le_refl _⟩
  | cons t₂ rest ih =>
    obtain ⟨⟨hlt, hlt2⟩, hch⟩ := List.chain_cons.mp hburst
    obtain ⟨ih1, ih2⟩ := ih t₂ hch
    constructor
    · show (if t + delay ≤ t₂ then [t + delay] else []) ++ geoipFired delay (t₂ :: rest)
        = [(t :: t₂ :: rest).getLast (List.cons_ne_nil t (t₂ :: rest)) + delay]
      rw [if_neg (not_le.mpr hlt2), List.nil_append, ih1,
        List.getLast_cons (List.cons_ne_nil t₂ rest)]
    · rw [List.getLast_cons (List.cons_ne_nil t₂ rest)]
      have := ih2
      linarith

/-- Witness for C8 at the spec's example burst: triggers at t = 0, 0.1, 0.2
with a 0.5 s delay fire exactly one lookup, at 0.7 (≥ t + 0.7). -/
theorem C8_debounce_single_fire_witness :
    (0 : ℚ) < 1/2 ∧
    geoipFired (1/2) [(0 : ℚ), 1/10, 2/10] = [7/10] := by
  refine ⟨by norm_num, ?_⟩
  have h := C8_debounce_single_fire (1/2) 0 [1/10, 2/10] (by norm_num)
    (List.Chain.cons ⟨by norm_num, by norm_num⟩
      (List.Chain.cons ⟨by norm_num, by norm_num⟩ List.Chain.nil))
  rw [h.1]
  norm_num [List.getLast]

/-! Section: C9: the State Store (`UiState`, lines 521-595)

`UiState` declares its Kivy properties in this order: `net_status`,
`vpn_status`, `vpn_name`, `ap_status`, `cpu_temp`, `geoip`, `ap_ssid`,
`ip_address`, `connected_clients`, `uptime`, `hostname`, `client_ssid`,
`host_iface`, `ap_iface`.  `collect_snapshot` builds a dict whose insertion
order is `net_status`, `client_ssid`, `ap_status`, (`cpu_temp` when the
thermal read succeeded), `hostname`, `uptime`, `connected_clients`,
`ap_ssid`, `ip_address`, `vpn_status`, `vpn_name`; `apply_snapshot` does
`setattr` per item in that order, and each Kivy property dispatches one
change notification iff its value changed. -/

inductive UiField where
  | net_status
  | vpn_status
  | vpn_name
  | ap_status
  | cpu_temp
  | geoip
  | ap_ssid
  | ip_address
  | connected_clients
  | uptime
  | hostname
  | client_ssid
  | host_iface
  | ap_iface
deriving DecidableEq, Repr

/-- The fields of `UiState` in class-declaration order. -/
def uiFieldOrder : List UiField :=
  [.net_status, .vpn_status, .vpn_name, .ap_status, .cpu_temp, .geoip, .ap_ssid,
   .ip_address, .connected_clients, .uptime, .hostname, .client_ssid,
   .host_iface, .ap_iface]

/-- A Kivy property value: a `StringProperty` or `NumericProperty` payload. -/
inductive UiValue where
  | str (s : String)
  | num (q : ℚ)
deriving DecidableEq, Repr

/-- Python `str.replace(pat, rep)` (all non-overlapping occurrences, left to
right), over character lists with fuel equal to the string length. -/
def replaceAux (pat rep : List Char) : Nat → List Char → List Char
  | _, [] => []
  | 0, cs => cs
  | fuel + 1, c :: rest =>
    if pat.isPrefixOf (c :: rest) ∧ pat ≠ [] then
      rep ++ replaceAux pat rep fuel (List.drop pat.length (c :: rest))
    else c :: replaceAux pat rep fuel rest

/-- Python `s.replace(pat, rep)` lifted to `String`. -/
def pyReplace (s pat rep : String) : String :=
  ⟨replaceAux pat.data rep.data s.data.length s.data⟩

/-- The external probe results consumed by one `collect_snapshot` pass
(each `run_cmd` yields `""` on failure; the HTTP client count and the
hostapd-conf SSID are `Option`s; `temp_raw` is the parsed thermal reading,
`none` when the read produced no output). -/
structure ProbeResults where
  host_ip : String
  iwgetid : String
  hostapd_status : String
  temp_raw : Option Int
  hostname_out : String
  uptime_out : String
  active_clients : Option Nat
  hostapd_ssid : Option String
  ap_ip : String
  pgrep_out : String
deriving DecidableEq, Repr

/-- `UiState.collect_snapshot` (lines 562-591): the snapshot dict, as the
ordered association list its insertion order produces. -/
def collect_snapshot (p : ProbeResults) (vpn_name_prev : String) :
    List (UiField × UiValue) :=
  [(UiField.net_status, UiValue.str (if p.host_ip ≠ "" then "ON" else "OFF")),
   (UiField.client_ssid, UiValue.str
     (if (if p.host_ip ≠ "" then "ON" else "OFF") = "ON" then p.iwgetid
      else "Disconnected")),
   (UiField.ap_status, UiValue.str
     (if p.hostapd_status = "active" then "ON" else "OFF"))]
  ++ (match p.temp_raw with
      | some r => [(UiField.cpu_temp, UiValue.num ((r : ℚ) / 1000))]
      | none => [])
  ++ [(UiField.hostname, UiValue.str
        (if p.hostname_out ≠ "" then p.hostname_out else "N/A")),
      (UiField.uptime, UiValue.str
        (if p.uptime_out ≠ "" then pyReplace p.uptime_out "up " "" else "N/A")),
      (UiField.connected_clients, UiValue.num
        (match p.active_clients with | some n => (n : ℚ) | none => 0)),
      (UiField.ap_ssid, UiValue.str
        (match p.hostapd_ssid with
         | some s => if s ≠ "" then s else "N/A"
         | none => "N/A")),
      (UiField.ip_address, UiValue.str (if p.ap_ip ≠ "" then p.ap_ip else "N/A"))]
  ++ (if p.pgrep_out ≠ "" then
        [(UiField.vpn_status, UiValue.str "ON"),
         (UiField.vpn_name, UiValue.str
           (if vpn_name_prev ≠ "None" then vpn_name_prev else "ON"))]
      else
        [(UiField.vpn_status, UiValue.str "OFF"),
         (UiField.vpn_name, UiValue.str "None")])

/-- `UiState.apply_snapshot` (lines 593-595): `for k, v in snap.items():
setattr(self, k, v)` — returns the updated store and the list of per-field
change notifications, in the order they were dispatched (a Kivy property
dispatches iff the written value differs from the stored one). -/
def apply_snapshot (store : UiField → UiValue) :
    List (UiField × UiValue) → ((UiField → UiValue) × List UiField)
  | [] => (store, [])
  | (k, v) :: rest =>
    let r := apply_snapshot (fun f => if f = k then v else store f) rest
    (r.1, (if store k ≠ v then [k] else []) ++ r.2)

/-- Lookup of a field in a snapshot (first binding). -/
def snapLookup (snap : List (UiField × UiValue)) (f : UiField) : Option UiValue :=
  match snap with
  | [] => none
  | (k, v) :: rest => if k = f then some v else snapLookup rest f

/-- The notification order asserted by claim C9, in the claim's words
(refinement comparison only): the changed fields ordered by the state type's
field declaration order. -/
def declOrderChanged (store : UiField → UiValue)
    (snap : List (UiField × UiValue)) : List UiField :=
  uiFieldOrder.filter (fun f =>
    match snapLookup snap f with
    | some v => decide (store f ≠ v)
    | none => false)

theorem snapLookup_eq_none_of_not_mem (snap : List (UiField × UiValue)) (f : UiField)
    (h : f ∉ snap.map Prod.fst) : snapLookup snap f = none := by
  induction snap with
  | nil => rfl
  | cons kv rest ih =>
    simp only [List.map_cons, List.mem_cons, not_or] at h
    simp only [snapLookup]
    rw [if_neg (fun h' => h.1 h'.symm), ih h.2]

/-- Characterization of `apply_snapshot` on a well-formed snapshot: the
notifications are exactly the changed fields, one each, in the snapshot's
insertion order, and every field ends up at its snapshot value (absent fields
keep their stored value). -/
theorem apply_snapshot_spec (store : UiField → UiValue)
    (snap : List (UiField × UiValue)) (hnd : (snap.map Prod.fst).Nodup) :
    (apply_snapshot store snap).2
      = (snap.filter (fun kv => decide (store kv.1 ≠ kv.2))).map Prod.fst ∧
    ∀ f, (apply_snapshot store snap).1 f
      = (match snapLookup snap f with | some v => v | none => store f) := by
  induction snap generalizing store with
  | nil => exact ⟨rfl, fun f => rfl⟩
  | cons kv rest ih =>
    obtain ⟨k, v⟩ := kv
    simp only [List.map_cons, List.nodup_cons] at hnd
    obtain ⟨hk, hrest⟩ := hnd
    obtain ⟨ih1, ih2⟩ := ih (fun f => if f = k then v else store f) hrest
    constructor
    · show (if store k ≠ v then [k] else [])
          ++ (apply_snapshot (fun f => if f = k then v else store f) rest).2 = _
      rw [ih1]
      have hcong : rest.filter
            (fun kv => decide ((if kv.1 = k then v else store kv.1) ≠ kv.2))
          = rest.filter (fun kv => decide (store kv.1 ≠ kv.2)) := by
        apply List.filter_congr
        intro a ha
        have hne : a.1 ≠ k := fun he => hk (he ▸ List.mem_map_of_mem Prod.fst ha)
        simp [hne]
      rw [show rest.filter
            (fun kv => decide ((fun f => if f = k then v else store f) kv.1 ≠ kv.2))
          = rest.filter
            (fun kv => decide ((if kv.1 = k then v else store kv.1) ≠ kv.2)) from rfl,
        hcong, List.filter_cons]
      by_cases hch : store k ≠ v
      · simp [hch]
      · simp [hch]
    · intro f
      show (apply_snapshot (fun f => if f = k then v else store f) rest).1 f = _
      rw [ih2 f]
      by_cases hf : k = f
      · subst hf
        rw [snapLookup_eq_none_of_not_mem rest k hk]
        simp [snapLookup]
      · simp only [snapLookup]
        rw [if_neg hf]
        cases hsl : snapLookup rest f with
        | none =>
          show (if f = k then v else store f) = store f
          rw [if_neg (fun h : f = k => hf h.symm)]
        | some v' => rfl

/-- Every snapshot `collect_snapshot` builds has pairwise-distinct keys. -/
theorem collect_snapshot_keys_nodup (p : ProbeResults) (vpn_name_prev : String) :
    ((collect_snapshot p vpn_name_prev).map Prod.fst).Nodup := by
  unfold collect_snapshot
  rcases p.temp_raw with _ | r <;> by_cases hv : p.pgrep_out ≠ "" <;>
    simp [hv]

/-- A concrete pre-existing store (one earlier snapshot already applied; VPN
off, client associated to `"OldNet"`). -/
def exampleStore : UiField → UiValue := fun f =>
  match f with
  | .net_status => .str "ON"
  | .vpn_status => .str "OFF"
  | .vpn_name => .str "None"
  | .ap_status => .str "ON"
  | .cpu_temp => .num 0
  | .geoip => .str "Unknown"
  | .ap_ssid => .str "RaspAP"
  | .ip_address => .str "10.3.141.1"
  | .connected_clients => .num 0
  | .uptime => .str "N/A"
  | .hostname => .str "raspap"
  | .client_ssid => .str "OldNet"
  | .host_iface => .str "wlan0"
  | .ap_iface => .str "wlan1"

/-- A concrete probe pass in which the client SSID changed and a VPN came up
(so `client_ssid`, `vpn_status` and `vpn_name` all change). -/
def exampleProbe : ProbeResults :=
  { host_ip := "192.168.1.5", iwgetid := "NewNet", hostapd_status := "active",
    temp_raw := none, hostname_out := "raspap", uptime_out := "",
    active_clients := none, hostapd_ssid := some "RaspAP",
    ap_ip := "10.3.141.1", pgrep_out := "1234" }

/-- Counterexample to C9 as stated: applying this snapshot fires the change
notifications in the snapshot's insertion order
(`client_ssid`, `vpn_status`, `vpn_name`), not in the order the fields are
defined on the state type (`vpn_status`, `vpn_name`, `client_ssid`). -/
theorem C9_counterexample :
    (apply_snapshot exampleStore (collect_snapshot exampleProbe "None")).2
      ≠ declOrderChanged exampleStore (collect_snapshot exampleProbe "None") := by
  decide

/-- Claim C9, amended: For every collected snapshot, applying it to the State
Store overwrites the store's fields from the snapshot and fires exactly one
change notification per changed field — but in the snapshot's insertion
order (the order `collect_snapshot` builds its dict), not in the order the
fields are defined on the state type. -/
theorem C9_apply_snapshot_order (store : UiField → UiValue)
    (snap : List (UiField × UiValue)) (hnd : (snap.map Prod.fst).Nodup) :
    (apply_snapshot store snap).2
      = (snap.filter (fun kv => decide (store kv.1 ≠ kv.2))).map Prod.fst ∧
    (apply_snapshot store snap).2.Nodup ∧
    (∀ f, (apply_snapshot store snap).1 f
      = (match snapLookup snap f with | some v => v | none => store f)) ∧
    (∀ p vprev, ((collect_snapshot p vprev).map Prod.fst).Nodup) := by
  obtain ⟨h1, h2⟩ := apply_snapshot_spec store snap hnd
  refine ⟨h1, ?_, h2, collect_snapshot_keys_nodup⟩
  rw [h1]
  exact List.Nodup.sublist (List.Sublist.map Prod.fst (List.filter_sublist snap)) hnd

/-- Witness for C9 (amended) at the concrete store and probe above. -/
theorem C9_apply_snapshot_order_witness :
    ((collect_snapshot exampleProbe "None").map Prod.fst).Nodup ∧
    (apply_snapshot exampleStore (collect_snapshot exampleProbe "None")).2
      = ((collect_snapshot exampleProbe "None").filter
          (fun kv => decide (exampleStore kv.1 ≠ kv.2))).map Prod.fst :=
  ⟨by decide,
   (C9_apply_snapshot_order exampleStore (collect_snapshot exampleProbe "None")
     (by decide)).1⟩
